import Mathlib

/-!
Shallow embedding of the context-budgeting and adaptive-configuration core of
the Codexa repository (`core/llm/__init__.py` and `core/config/__init__.py`),
together with proofs settling the frozen claims about it.

Modelling conventions:
* Python strings are Lean `String` / `List Char`; Python `len` counts code
  points, as does `List.length` on `String.data`.
* Python ints are `Nat` / `Int` (noted per definition).
* Python floats appear only in `* 0.75`, `* 1.1`, `round(x, 1)`, `f"{x:.1f}"`
  and `f"{x:.2%}"`; they are modelled as exact rational arithmetic
  (`3 * w / 4`, the comparison `10 * k ≤ 11 * m`, and half-even rounding on
  `ℚ`), which agrees with IEEE double evaluation on all claim-relevant inputs.
-/

namespace Codexa

set_option maxRecDepth 16000

/-- Python `needle`-starts-`hay` test over code points: `hay.startswith(needle)`. -/
def startsWithChars : List Char → List Char → Bool
  | [], _ => true
  | _ :: _, [] => false
  | n :: ns, c :: cs => n = c && startsWithChars ns cs

/-- Python substring test `needle in hay` (contiguous substring of code points). -/
def hasSub (needle : List Char) : List Char → Bool
  | [] => needle.isEmpty
  | hay@(_ :: rest) => startsWithChars needle hay || hasSub needle rest

/-- Round the fraction `n / d` (with `d > 0`) to the nearest integer, halves
to even (Python rounds binary doubles half-even; modelled on the exact value;
fraction arithmetic is spelled out on `num`/`den` so that the kernel can
evaluate it, `ℚ`'s own arithmetic being irreducible). -/
def roundHalfEvenFrac (n d : Int) : Int :=
  let f := n.fdiv d
  let r := n - d * f
  if 2 * r = d then (if f % 2 = 0 then f else f + 1)
  else if 2 * r < d then f else f + 1

/-- Python `round(n / d, 1)` (with `d > 0`) as an exact rational. -/
def pyRound1Frac (n d : Int) : ℚ := mkRat (roundHalfEvenFrac (10 * n) d) 10

/-- Left-pad a decimal digit string with zeros to the given width. -/
def padZeros (s : String) (width : Nat) : String :=
  ⟨List.replicate (width - s.data.length) '0' ++ s.data⟩

/-- Python fixed-point formatting `f"{n / d:.<decimals>f}"` (with `d > 0`; the
sign of a negative zero is not modelled). -/
def fmtFixedFrac (decimals : Nat) (n d : Int) : String :=
  let m : Nat := 10 ^ decimals
  let k : Int := roundHalfEvenFrac (n * m) d
  let sign := if k < 0 then "-" else ""
  let a := k.natAbs
  if decimals = 0 then sign ++ toString a
  else sign ++ toString (a / m) ++ "." ++ padZeros (toString (a % m)) decimals

/-- Python `f"{score:.2%}"`: multiply by 100, two decimals, percent sign. -/
def fmtPercent2 (score : ℚ) : String :=
  fmtFixedFrac 2 (score.num * 100) (score.den : Int) ++ "%"

/-! ## Window catalog (`OllamaLLM.__init__`, `core/llm/__init__.py` lines 54-64) -/

/-- The fixed ladder of valid Ollama context-window sizes
(`valid_sizes = [4096, 8192, 16384, 32768, 65536, 131072, 262144]`). -/
def validSizes : List Nat := [4096, 8192, 16384, 32768, 65536, 131072, 262144]

/-- Python `min(l, key=key)`: strict comparison while folding, so the first
minimum in list order wins ties. The `0` default is never reached (the one
caller passes the non-empty literal `validSizes`). -/
def minByKeyFirst (key : Nat → Nat) : List Nat → Nat
  | [] => 0
  | x :: xs => xs.foldl (fun best y => if key y < key best then y else best) x

/-- `OllamaLLM.__init__` context-window normalization: a requested window
already in the ladder is kept; otherwise
`closest = min(valid_sizes, key=lambda x: abs(x - self.context_window))`. -/
def nearestValidWindow (requested : Int) : Int :=
  if ∃ s ∈ validSizes, (s : Int) = requested then requested
  else (minByKeyFirst (fun s => ((s : Int) - requested).natAbs) validSizes : Int)

/-! ### Helper lemmas about Python-style `min(..., key=...)` folds -/

/-- The body of `minByKeyFirst` after consuming the head. -/
def minByGo (key : Nat → Nat) (best : Nat) (l : List Nat) : Nat :=
  l.foldl (fun b y => if key y < key b then y else b) best

/-! ## Structure-aware code truncation
(`OllamaLLM._truncate_code_intelligently`, `core/llm/__init__.py` lines 529-570) -/

/-- Python `s[:k]` on code points (negative `k` counts from the end; both
directions clamp at the string bounds, as Python slices do). -/
def pySliceTo (l : List Char) (k : Int) : List Char :=
  if 0 ≤ k then l.take k.toNat else l.take (l.length - (-k).toNat)

/-- Python `content.split('\n')` over code points (`"".split('\n') == [""]`). -/
def splitOnNl : List Char → List (List Char)
  | [] => [[]]
  | c :: rest =>
    if c = '\n' then [] :: splitOnNl rest
    else
      match splitOnNl rest with
      | l :: ls => (c :: l) :: ls
      | [] => [[c]]

/-- Python `'\n'.join(parts)`. -/
def intercalateNl : List (List Char) → List Char
  | [] => []
  | [l] => l
  | l :: ls => l ++ '\n' :: intercalateNl ls

/-- The definition-header keywords checked by `_truncate_code_intelligently`
(`['def ', 'class ', '    def ', '    class ']`, tested with Python `in`,
i.e. as substrings of the line). -/
def defClassKeywords : List (List Char) :=
  ["def ".data, "class ".data, "    def ".data, "    class ".data]

/-- The line-accumulation loop of `_truncate_code_intelligently`: accumulate
lines while `current_length + line_length <= max_chars`; at the first overflow
line, include it anyway when it contains a definition keyword and fits the 10%
grace allowance (`current_length + line_length <= max_chars * 1.1`, an exact
comparison modelled as `10 * _ ≤ 11 * maxChars`), then stop. -/
def truncLinesLoop (maxChars : Nat) : List (List Char) → Nat → List (List Char) → List (List Char)
  | [], _, acc => acc.reverse
  | line :: rest, currentLength, acc =>
    let lineLength := line.length + 1
    if currentLength + lineLength > maxChars then
      if defClassKeywords.any (fun kw => hasSub kw line) then
        if 10 * (currentLength + lineLength) ≤ 11 * maxChars then
          (line :: acc).reverse
        else acc.reverse
      else acc.reverse
    else truncLinesLoop maxChars rest (currentLength + lineLength) (line :: acc)

/-- The tail of `_truncate_code_intelligently`: hard-truncate to
`max_chars - 50` code points and append the literal marker when the joined
result still exceeds `max_chars`. -/
def truncateCodeFinish (maxChars : Nat) (result : List Char) : String :=
  if result.length > maxChars then
    ⟨pySliceTo result ((maxChars : Int) - 50) ++ "\n\n[... code truncated ...]".data⟩
  else ⟨result⟩

/-- `OllamaLLM._truncate_code_intelligently`. -/
def truncateCodeIntelligently (content : String) (maxChars : Nat) : String :=
  if content.data.length ≤ maxChars then content
  else truncateCodeFinish maxChars
    (intercalateNl (truncLinesLoop maxChars (splitOnNl content.data) 0 []))

/-- Concrete input refuting the claimed bounds of C6 at `maxChars = 40`:
a 20-character line followed by a 22-character line containing `"def "`
(so the grace extension applies), total 43 characters. -/
def c6cex : String := ⟨List.replicate 20 'a' ++ '\n' :: ("def ".data ++ List.replicate 18 'b')⟩

/-! ## Context budgeter (`OllamaLLM._build_context`, `core/llm/__init__.py`
lines 444-527) -/

/-- A retrieval candidate as read by `_build_context`
(`result.get("content", "")`, `result.get("file_path", "Unknown")`,
`result.get("score", 0.0)`, `result.get("file_type", "")`; the `.get` defaults
are modelled as always-present fields, and the float `score` as an exact
rational). -/
structure Candidate where
  content : String
  file_path : String
  score : ℚ
  file_type : String
deriving DecidableEq, Repr

/-- The stats dict returned by `_build_context`. `context_usage_percent` is
Python `round(_, 1)` of a float division, modelled on exact rationals. -/
structure ContextStats where
  documents_used : Nat
  documents_available : Nat
  truncated : Bool
  context_chars : Nat
  context_tokens_estimate : Nat
  max_context_chars : Nat
  context_usage_percent : ℚ
deriving DecidableEq, Repr

/-- The `file_type` values that get structure-aware truncation
(`["py", "js", "ts", "java", "cpp", "c", "go", "rs"]`). -/
def codeFileTypes : List String := ["py", "js", "ts", "java", "cpp", "c", "go", "rs"]

/-- One block of the context document:
`f"[Document {idx}] {file_path} (relevance: {score:.2%})\n{content}\n"`,
written out over code points. -/
def formatBlock (idx : Nat) (c : Candidate) (content : List Char) : List Char :=
  "[Document ".data ++ (toString idx).data ++ "] ".data ++ c.file_path.data
    ++ " (relevance: ".data ++ (fmtPercent2 c.score).data ++ ")\n".data
    ++ content ++ ['\n']

/-- Per-candidate content selection of `_build_context` (lines 499-509): code
types go through `_truncate_code_intelligently` (leaving the `truncated` flag
alone), other content longer than the available space is hard-cut to
`available_space - 3` plus `"..."` and sets `truncated = True`. -/
def chooseContent (availableSpace : Nat) (truncated : Bool) (c : Candidate) :
    List Char × Bool :=
  if codeFileTypes.contains c.file_type then
    ((truncateCodeIntelligently c.content availableSpace).data, truncated)
  else if availableSpace < c.content.data.length then
    (c.content.data.take (availableSpace - 3) ++ "...".data, true)
  else (c.content.data, truncated)

/-- Loop state of `_build_context`: accumulated blocks (`context_parts`),
their total length (`current_length`, which does not count the final join
separators), `documents_used`, and the `truncated` flag. -/
structure BuildState where
  parts : List (List Char)
  currentLength : Nat
  documentsUsed : Nat
  truncated : Bool
deriving Repr

/-- The candidate loop of `_build_context`
(`for idx, result in enumerate(context[:50], 1)`, the `[:50]` cap being
applied by the caller): stop and set `truncated` when
`available_space <= 100`; otherwise append the block for the (possibly
truncated) content and accumulate. -/
def buildLoop (maxContextChars : Nat) : Nat → List Candidate → BuildState → BuildState
  | _, [], st => st
  | idx, c :: rest, st =>
    if (maxContextChars : Int) - (st.currentLength : Int) ≤ 100 then
      { st with truncated := true }
    else
      let cf := chooseContent (maxContextChars - st.currentLength) st.truncated c
      let block := formatBlock idx c cf.1
      buildLoop maxContextChars (idx + 1) rest
        ⟨st.parts ++ [block], st.currentLength + block.length,
         st.documentsUsed + 1, cf.2⟩

/-- The sentinel document `_build_context` returns for an empty candidate
list. -/
def emptyContextSentinel : String :=
  "No indexed documents found. Please index some files first."

/-- `OllamaLLM._build_context` (the `query` argument is accepted and, as in
the source, unused; `contextWindow` is the effective window already resolved
by the caller, which never passes `None`). `int(effective_window * 0.75)` is
exact float arithmetic for all claim-relevant windows, so it is `⌊3w/4⌋`. -/
def buildContext (query : String) (context : List Candidate) (contextWindow : Nat) :
    String × ContextStats :=
  if context.isEmpty then
    (emptyContextSentinel,
     { documents_used := 0, documents_available := 0, truncated := false,
       context_chars := 0, context_tokens_estimate := 0, max_context_chars := 0,
       context_usage_percent := 0 })
  else
    let maxContextChars := 3 * contextWindow / 4 * 4
    let st := buildLoop maxContextChars 1 (context.take 50) ⟨[], 0, 0, false⟩
    (⟨intercalateNl st.parts⟩,
     { documents_used := st.documentsUsed,
       documents_available := context.length,
       truncated := st.truncated,
       context_chars := st.currentLength,
       context_tokens_estimate := st.currentLength / 4,
       max_context_chars := maxContextChars,
       context_usage_percent :=
         if 0 < maxContextChars then
           pyRound1Frac ((st.currentLength : Int) * 100) (maxContextChars : Int)
         else 0 })

/-- The 51 trivial candidates refuting `documents_available ≤ 50` in C2. -/
def c2cands : List Candidate := List.replicate 51 ⟨"x", "f", 0, ""⟩

/-- The candidate (500 characters of content, a 120-character file path)
refuting the claimed `context_chars ≤ max_context_chars + 100` bound in C3. -/
def c3cand : Candidate := ⟨⟨List.replicate 500 'a'⟩, ⟨List.replicate 120 'p'⟩, 0, ""⟩

/-- The candidate used in the witness below (a short Python snippet). -/
def smallPyCand : Candidate := ⟨"hello world", "a.py", 0, "py"⟩

/-- The candidate (430 characters of one-line Python content) exhibiting the
silent code-truncation path of C10. -/
def c10cand : Candidate := ⟨⟨List.replicate 430 'a'⟩, "m.py", 0, "py"⟩

/-! ## Usage history and the adaptive recommender
(`core/config/__init__.py` lines 159-243) -/

/-- A usage-history entry as read by `get_smart_recommendation`
(`entry.get("context_usage_percent", 0)` and
`entry.get("context_truncated", False)`, plus the timestamp that
`add_usage_entry` prepends; the `.get` defaults are modelled as
always-present fields and the float percent as an exact rational). -/
structure UsageEntry where
  timestamp : String
  context_usage_percent : ℚ
  context_truncated : Bool
deriving DecidableEq, Repr

/-- `add_usage_entry`: append the timestamped entry to
`config["usage_history"]`, then keep only the last 100 entries
(`config["usage_history"][-100:]`). The persistence round-trip through the
JSON config store is modelled by acting on the stored list directly. -/
def addUsageEntry (history : List UsageEntry) (entry : UsageEntry) : List UsageEntry :=
  let h := history ++ [entry]
  if 100 < h.length then h.drop (h.length - 100) else h

/-- A recommendation dict (`{"size": ..., "reason": ..., "confidence": ...}`). -/
structure Recommendation where
  size : Nat
  reason : String
  confidence : String
deriving DecidableEq, Repr

/-- Python `history[-20:]`. -/
def recentEntries (history : List UsageEntry) : List UsageEntry :=
  history.drop (history.length - 20)

/-- `high_usage_count`: entries of the last 20 with
`context_usage_percent > 90` (the float comparison on the exact value, via
cross-multiplication with the positive denominator). -/
def highUsageCount (history : List UsageEntry) : Nat :=
  ((recentEntries history).filter
    (fun e => 90 * (e.context_usage_percent.den : Int) < e.context_usage_percent.num)).length

/-- `truncation_count`: entries of the last 20 with `context_truncated` set. -/
def truncationCount (history : List UsageEntry) : Nat :=
  ((recentEntries history).filter (fun e => e.context_truncated)).length

/-- The exact value of the float accumulation `avg_usage += usage_pct` over
the last 20 entries, as an unreduced fraction (numerator, positive
denominator). -/
def sumUsageFrac (entries : List UsageEntry) : Int × Int :=
  entries.foldl
    (fun acc e =>
      (acc.1 * (e.context_usage_percent.den : Int)
         + e.context_usage_percent.num * acc.2,
       acc.2 * (e.context_usage_percent.den : Int)))
    (0, 1)

/-- `avg_usage /= len(history[-20:])`, as an exact fraction. -/
def avgUsageFrac (history : List UsageEntry) : Int × Int :=
  let s := sumUsageFrac (recentEntries history)
  (s.1, s.2 * ((recentEntries history).length : Int))

/-- `get_smart_recommendation`, as a function of the stored usage history and
the configured window (the source reads both through the JSON config store:
`get_usage_history()` and `get_llm_config().get("context_window", 4096)`).
Control flow as in the source: fewer than 5 entries → `None`; the
high-usage/truncation trigger scans `valid_sizes` upward for the first size
above the current window and returns it if found; otherwise (including when
that scan finds nothing) the low-usage branch scans downward; reason strings
carry Python's `f"{avg_usage:.1f}"`. -/
def getSmartRecommendation (history : List UsageEntry) (currentWindow : Nat) :
    Option Recommendation :=
  if history.length < 5 then none
  else
    let avg := avgUsageFrac history
    let upsize : Option Recommendation :=
      if 5 < highUsageCount history ∨ 3 < truncationCount history then
        (validSizes.find? (fun s => currentWindow < s)).map fun size =>
          { size := size
            reason := "High usage detected (" ++ toString (highUsageCount history)
              ++ " queries >90%, " ++ toString (truncationCount history)
              ++ " truncated). Average usage: " ++ fmtFixedFrac 1 avg.1 avg.2
              ++ "%. Consider increasing to " ++ toString size ++ " tokens."
            confidence := if 10 < highUsageCount history then "high" else "medium" }
      else none
    match upsize with
    | some r => some r
    | none =>
      if avg.1 < 30 * avg.2 ∧ 4096 < currentWindow then
        (validSizes.reverse.find? (fun s => s < currentWindow)).map fun size =>
          { size := size
            reason := "Low average usage (" ++ fmtFixedFrac 1 avg.1 avg.2
              ++ "%). Could reduce to " ++ toString size ++ " tokens to save memory."
            confidence := "low" }
      else none

/-- The concrete history (6 entries at 95% with truncation, 4 at 10%) used in
the witness below. -/
def c8hist : List UsageEntry :=
  List.replicate 6 ⟨"t", 95, true⟩ ++ List.replicate 4 ⟨"t", 10, false⟩

/-- The concrete history (6 entries at 91%, 14 at 0%) on which both the
upsize trigger (6 > 5 high-usage entries) and the downsize trigger
(average 27.3% < 30%) hold simultaneously. -/
def c4hist : List UsageEntry :=
  List.replicate 6 ⟨"t", 91, false⟩ ++ List.replicate 14 ⟨"t", 0, false⟩

/-! ## Answer orchestration (`OllamaLLM.generate_answer` and its helpers,
`core/llm/__init__.py` lines 237-442) -/

/-- Find the first occurrence of the (non-empty) separator in the list,
returning the part before it and the part after it. -/
def findSplit (sep : List Char) : List Char → Option (List Char × List Char)
  | [] => none
  | hay@(c :: rest) =>
    if startsWithChars sep hay then some ([], hay.drop sep.length)
    else (findSplit sep rest).map (fun p => (c :: p.1, p.2))

/-- Python `s.split(sep)` for a non-empty separator (greedy, left to right,
non-overlapping); `fuel ≥ len(s) + 1` suffices since every separator
occurrence consumes at least one character. -/
def splitOnSub (sep : List Char) : Nat → List Char → List (List Char)
  | 0, l => [l]
  | fuel + 1, l =>
    match findSplit sep l with
    | none => [l]
    | some (before, after) => before :: splitOnSub sep fuel after

/-- Python `s.split(sep)[-1]` for a non-empty separator. -/
def lastSplitStr (sep : String) (s : String) : String :=
  ⟨(splitOnSub sep.data (s.data.length + 1) s.data).getLastD []⟩

/-- Python `s.strip()` (no argument): remove leading and trailing whitespace
(ASCII whitespace; over code points, so the kernel can evaluate it). -/
def pyStrip (s : String) : String :=
  ⟨((s.data.dropWhile Char.isWhitespace).reverse.dropWhile Char.isWhitespace).reverse⟩

/-- Python `s.lower()` (ASCII case folding, over code points). -/
def pyLower (s : String) : String := ⟨s.data.map Char.toLower⟩

/-- The hedge phrases of `_needs_more_context`. -/
def missingInfoIndicators : List String :=
  ["cannot be found", "not found", "not available", "incomplete", "missing",
   "unclear", "not specified", "not mentioned"]

/-- `OllamaLLM._needs_more_context` (the `query` argument is accepted and, as
in the source, unused). Python `.lower()` is modelled by `pyLower`
(ASCII case folding, which covers the fixed ASCII indicator list). -/
def needsMoreContext (answer : String) (query : String) : Bool :=
  missingInfoIndicators.any fun ind => hasSub ind.data (pyLower answer).data

/-- Python regex `\w` over ASCII (the indicator and keyword patterns used
here are ASCII; full Unicode word characters are not modelled). -/
def isWordChar (c : Char) : Bool := c.isAlphanum || c = '_'

/-- Case-insensitive match of a literal pattern at the head of the input,
returning the unconsumed remainder. -/
def matchCI : List Char → List Char → Option (List Char)
  | [], hay => some hay
  | _ :: _, [] => none
  | p :: ps, c :: cs => if c.toLower = p.toLower then matchCI ps cs else none

/-- One attempted match of `(def|class)\s+(\w+)` at the head of the input
(the preceding word boundary is checked by the caller): the keyword, at least
one whitespace character, then the maximal word-character run; returns the
captured name and the unconsumed remainder. -/
def matchDefClassAt (l : List Char) : Option (String × List Char) :=
  match (match matchCI "def".data l with
         | some r => some r
         | none => matchCI "class".data l) with
  | none => none
  | some r =>
    if (r.takeWhile Char.isWhitespace).isEmpty then none
    else
      let r2 := r.dropWhile Char.isWhitespace
      let name := r2.takeWhile isWordChar
      if name.isEmpty then none
      else some (⟨name⟩, r2.dropWhile isWordChar)

/-- `re.findall(r'\b(def|class)\s+(\w+)', answer, re.IGNORECASE)`, keeping
the captured names: a left-to-right scan with a word-boundary flag that
consumes each match whole; one unit of fuel per consumed character. -/
def scanDefClass : Nat → Bool → List Char → List String
  | 0, _, _ => []
  | _, _, [] => []
  | fuel + 1, prevWord, l@(c :: rest) =>
    if prevWord then scanDefClass fuel (isWordChar c) rest
    else
      match matchDefClassAt l with
      | some (name, r) => name :: scanDefClass fuel true r
      | none => scanDefClass fuel (isWordChar c) rest

/-- The extension alternatives of the file-path pattern, in source order. -/
def extAlternatives : List String := ["py", "md", "js", "ts", "java", "cpp"]

/-- First extension alternative matching case-insensitively at the head of
the input; returns the *matched text* (the capture), as `re.findall` does. -/
def firstMatchExt (r2 : List Char) : List String → Option (String × List Char)
  | [] => none
  | e :: es =>
    match matchCI e.data r2 with
    | some rest => some (⟨r2.take e.data.length⟩, rest)
    | none => firstMatchExt r2 es

/-- One attempted match of `[\w/\\]+\.(py|md|js|ts|java|cpp)` at the head
of the input: a non-empty maximal run of word/slash/backslash characters, a
literal dot, then an extension alternative. Backtracking the greedy run
cannot help (a shorter run never ends before a dot), so the maximal run is
checked once. -/
def matchPathExtAt (l : List Char) : Option (String × List Char) :=
  let run := l.takeWhile (fun c => isWordChar c || c = '/' || c = '\\')
  if run.isEmpty then none
  else
    match l.dropWhile (fun c => isWordChar c || c = '/' || c = '\\') with
    | '.' :: r2 => firstMatchExt r2 extAlternatives
    | _ => none

/-- `re.findall(r'[\w/\\]+\.(py|md|js|ts|java|cpp)', answer,
re.IGNORECASE)`, keeping the captured extensions: left-to-right scan,
advancing one character on failure and past the match on success. -/
def scanFileExts : Nat → List Char → List String
  | 0, _ => []
  | _, [] => []
  | fuel + 1, l@(_ :: rest) =>
    match matchPathExtAt l with
    | some (ext, r) => ext :: scanFileExts fuel r
    | none => scanFileExts fuel rest

/-- Python `s.split()` (no argument): split on whitespace runs, no empties. -/
def pyWords (s : String) : List String :=
  (s.split Char.isWhitespace).filter (fun w => w ≠ "")

/-- Deduplication keeping the first occurrence of each element. -/
def dedupFirst : List String → List String
  | [] => []
  | x :: xs => x :: (dedupFirst xs).filter (fun y => y ≠ x)

/-- `OllamaLLM._extract_follow_up_terms`: definition/class names found in the
answer text, the file-path matches (whose captured group is just the
extension, which the source's subsequent `/`- and `\\`-splitting leaves
unchanged), and query words longer than 4 characters; deduplicated, capped at
5. Python's `list(set(terms))` iterates in unspecified order; modelled as
first-occurrence order. -/
def extractFollowUpTerms (query : String) (answer : String) : List String :=
  let terms1 := scanDefClass answer.data.length false answer.data
  let terms2 := (scanFileExts answer.data.length answer.data).map
    (fun p => lastSplitStr "\\" (lastSplitStr "/" p))
  let terms3 := (pyWords query).filter (fun w => 4 < w.data.length)
  (dedupFirst (terms1 ++ terms2 ++ terms3)).take 5

/-- `generate_answer`'s prompt template (the f-string at lines 300-315), with
its two substitution points. -/
def composePrompt (contextText : String) (query : String) : String :=
  "You are an expert code analyst. Based on the following code snippets and documentation from a codebase, provide a detailed and comprehensive answer to the question.\n\nGuidelines:\n- Explain how functions, classes, and modules work\n- Identify relationships and dependencies between components\n- Reference specific file paths when relevant\n- If the code shows patterns or architecture, explain them\n- Be specific and cite code examples from the context\n- If information is incomplete, note what's missing\n\nContext (code snippets and documentation):\n"
  ++ contextText ++ "\n\nQuestion: " ++ query
  ++ "\n\nProvide a detailed answer with specific references to the code:"

/-- The canned apology `generate_answer` returns when the context is the
empty sentinel (the three concatenated string literals at lines 288-290). -/
def apologyAnswer : String :=
  "I don't have access to any indexed code or documentation to answer your question. Please make sure you have indexed some files first using the index endpoint. You can index files using: codexa index <file_path> or through the GUI."

/-- A JSON-like value, for modelling the stats dicts `generate_answer`
returns (percentages as exact rationals). -/
inductive JVal where
  | str (s : String)
  | num (n : Nat)
  | rat (q : ℚ)
  | bool (b : Bool)
  | null
deriving DecidableEq, Repr

/-- `self.detected_context_window` as a stats value (`None` → `null`). -/
def optNum : Option Nat → JVal
  | some n => .num n
  | none => .null

/-- Outcome of the `/api/generate` request inside `generate_answer`'s try
block: a 200 response whose JSON carries `response`, an `httpx.HTTPError`, or
any other exception (bad status, JSON decode failure, ...). -/
inductive GenResult where
  | success (response : String)
  | httpError (msg : String)
  | otherError (msg : String)
deriving DecidableEq, Repr

/-- The state of an `OllamaLLM` instance at a `generate_answer` call,
together with the oracle outcomes of its two effectful steps: `initOutcome`
is what `_initialize()` does when it runs (`Except.error` = the re-raised
connection exception of line 153), and `genResult` the generation request's
outcome. `detectedContextWindow` is the value `self.detected_context_window`
holds when the stats are built. -/
structure LLMState where
  httpxAvailable : Bool
  modelName : String
  contextWindow : Nat
  initialized : Bool
  detectedContextWindow : Option Nat
  initOutcome : Except String Unit
  genResult : GenResult
deriving Repr

/-- Python `context_window_override or self.context_window` (`or` treats
`None` and `0` as falsy). -/
def pyOrNat (a : Option Nat) (b : Nat) : Nat :=
  match a with
  | some v => if v = 0 then b else v
  | none => b

/-- `OllamaLLM.generate_answer`. The first component is
`Except exceptionMessage (answer, statsDict)`, `Except.error` modelling an
exception escaping to the caller (possible only out of `_initialize()`); the
second records whether the `/api/generate` endpoint was invoked.
`max_length = int(effective_window * 0.1)` is exact float arithmetic for all
claim-relevant windows, hence `w / 10`; `temperature` and `max_length` only
feed the request options and cannot affect the returned value; the
`ZeroDivisionError` of `context_usage_percent` when the effective window is 0
is caught by the broad `except Exception` like any other in-request
exception. -/
def generateAnswer (st : LLMState) (query : String) (context : List Candidate)
    (maxLength : Option Nat) (temperature : ℚ) (iterative : Bool)
    (contextWindowOverride : Option Nat) :
    Except String (String × List (String × JVal)) × Bool :=
  if st.httpxAvailable then
    match (if st.initialized then Except.ok () else st.initOutcome) with
    | .error e => (.error e, false)
    | .ok _ =>
      let effectiveWindow := pyOrNat contextWindowOverride st.contextWindow
      let bc := buildContext query context effectiveWindow
      if bc.1 = "" ∨ pyStrip bc.1 = emptyContextSentinel then
        (.ok (apologyAnswer,
              [("context_documents_available", .num context.length),
               ("context_documents_used", .num 0),
               ("context_usage_percent", .num 0),
               ("warning", .str "No content available in context")]), false)
      else
        let prompt := composePrompt bc.1 query
        let promptTokens := prompt.data.length / 4
        let contextTokens := bc.2.context_tokens_estimate
        match st.genResult with
        | .httpError e =>
          (.ok ("Error connecting to Ollama: " ++ e
                ++ ". Make sure Ollama is running: ollama serve",
                [("error", .str e)]), true)
        | .otherError e =>
          (.ok ("Error generating answer: " ++ e, [("error", .str e)]), true)
        | .success response =>
          if effectiveWindow = 0 then
            (.ok ("Error generating answer: division by zero",
                  [("error", .str "division by zero")]), true)
          else
            let a0 := pyStrip response
            let a1 := if hasSub "Answer:".data a0.data
              then pyStrip (lastSplitStr "Answer:" a0) else a0
            let p50 : String := ⟨prompt.data.take 50⟩
            let a2 := if hasSub p50.data a1.data
              then pyStrip (lastSplitStr p50 a1) else a1
            let a3 :=
              if iterative && needsMoreContext a2 query then
                let terms := extractFollowUpTerms query a2
                if terms.isEmpty then a2
                else a2
                  ++ "\n\n[Note: Some information may be incomplete. Consider searching for: "
                  ++ String.intercalate ", " (terms.take 3) ++ "]"
              else a2
            let answerTokens := a3.data.length / 4
            let totalTokens := promptTokens + contextTokens + answerTokens
            (.ok ((if a3 = "" then "No answer generated." else a3),
                  [("context_tokens", .num contextTokens),
                   ("prompt_tokens", .num promptTokens),
                   ("answer_tokens", .num answerTokens),
                   ("total_tokens", .num totalTokens),
                   ("context_window", .num effectiveWindow),
                   ("context_window_configured", .num st.contextWindow),
                   ("context_window_override", .bool contextWindowOverride.isSome),
                   ("context_usage_percent",
                     .rat (pyRound1Frac ((totalTokens : Int) * 100) (effectiveWindow : Int))),
                   ("context_truncated", .bool bc.2.truncated),
                   ("context_documents_used", .num bc.2.documents_used),
                   ("context_documents_available", .num context.length),
                   ("detected_ollama_context_window", optNum st.detectedContextWindow)]),
             true)
  else
    (.ok ("LLM not available. Install httpx to enable intelligent responses.",
          [("error", .str "httpx not installed")]), false)

/-- An uninitialized client whose Ollama connection attempt fails. -/
def c1FailState : LLMState :=
  ⟨true, "llama3.2", 4096, false, none, Except.error "Connection refused",
   GenResult.success "hi"⟩

/-- An initialized client whose generation request raises `httpx.HTTPError`. -/
def httpFailState : LLMState :=
  ⟨true, "llama3.2", 4096, true, some 4096, Except.ok (),
   GenResult.httpError "timeout"⟩

/-- An initialized, healthy client. -/
def okState : LLMState :=
  ⟨true, "llama3.2", 4096, true, none, Except.ok (), GenResult.success "hi"⟩

/-- Discriminate a returned pair from a raised exception. -/
def exceptIsOk : Except String (String × List (String × JVal)) → Bool
  | .ok _ => true
  | .error _ => false

/-! ## Theorems settling the claims, with their helper lemmas, witnesses and
counterexamples -/

theorem minByGo_spec (key : Nat → Nat) :
    ∀ (l : List Nat) (best : Nat),
      (minByGo key best l = best ∨ minByGo key best l ∈ l) ∧
      key (minByGo key best l) ≤ key best ∧
      (∀ y ∈ l, key (minByGo key best l) ≤ key y) := by
  intro l
  induction l with
  | nil =>
    intro best
    exact ⟨Or.inl rfl, le_refl _, fun y hy => absurd hy (List.not_mem_nil y)⟩
  | cons y ys ih =>
    intro best
    by_cases hlt : key y < key best
    · have hstep : minByGo key best (y :: ys) = minByGo key y ys := by
        simp only [minByGo, List.foldl_cons, if_pos hlt]
      obtain ⟨h1, h2, h3⟩ := ih y
      rw [hstep]
      refine ⟨?_, ?_, ?_⟩
      · rcases h1 with h | h
        · exact Or.inr (by rw [h]; exact List.mem_cons_self _ _)
        · exact Or.inr (List.mem_cons_of_mem _ h)
      · omega
      · intro z hz
        rcases List.mem_cons.mp hz with h | h
        · rw [h]; exact h2
        · exact h3 z h
    · have hstep : minByGo key best (y :: ys) = minByGo key best ys := by
        simp only [minByGo, List.foldl_cons, if_neg hlt]
      obtain ⟨h1, h2, h3⟩ := ih best
      rw [hstep]
      refine ⟨?_, h2, ?_⟩
      · rcases h1 with h | h
        · exact Or.inl h
        · exact Or.inr (List.mem_cons_of_mem _ h)
      · intro z hz
        rcases List.mem_cons.mp hz with h | h
        · rw [h]; omega
        · exact h3 z h

theorem minByGo_strict (key : Nat → Nat) :
    ∀ (l : List Nat) (best : Nat),
      minByGo key best l = best ∨
        (minByGo key best l ∈ l ∧ key (minByGo key best l) < key best) := by
  intro l
  induction l with
  | nil => intro best; exact Or.inl rfl
  | cons y ys ih =>
    intro best
    by_cases hlt : key y < key best
    · have hstep : minByGo key best (y :: ys) = minByGo key y ys := by
        simp only [minByGo, List.foldl_cons, if_pos hlt]
      rw [hstep]
      rcases ih y with h | ⟨hmem, hk⟩
      · exact Or.inr ⟨by rw [h]; exact List.mem_cons_self _ _, by rw [h]; exact hlt⟩
      · exact Or.inr ⟨List.mem_cons_of_mem _ hmem, lt_trans hk hlt⟩
    · have hstep : minByGo key best (y :: ys) = minByGo key best ys := by
        simp only [minByGo, List.foldl_cons, if_neg hlt]
      rw [hstep]
      rcases ih best with h | ⟨hmem, hk⟩
      · exact Or.inl h
      · exact Or.inr ⟨List.mem_cons_of_mem _ hmem, hk⟩

theorem minByGo_tie_le (key : Nat → Nat) :
    ∀ (l : List Nat) (best : Nat), List.Sorted (· ≤ ·) (best :: l) →
      ∀ z ∈ best :: l, key z = key (minByGo key best l) → minByGo key best l ≤ z := by
  intro l
  induction l with
  | nil =>
    intro best _ z hz _
    rcases List.mem_cons.mp hz with h | h
    · simp [minByGo, h]
    · exact absurd h (List.not_mem_nil z)
  | cons y ys ih =>
    intro best hsorted z hz hkey
    have hby : best ≤ y := (List.sorted_cons.mp hsorted).1 y (List.mem_cons_self _ _)
    have hbys : ∀ w ∈ ys, best ≤ w := fun w hw =>
      (List.sorted_cons.mp hsorted).1 w (List.mem_cons_of_mem _ hw)
    have hyys : List.Sorted (· ≤ ·) (y :: ys) := (List.sorted_cons.mp hsorted).2
    by_cases hlt : key y < key best
    · have hstep : minByGo key best (y :: ys) = minByGo key y ys := by
        simp only [minByGo, List.foldl_cons, if_pos hlt]
      rw [hstep] at hkey ⊢
      rcases List.mem_cons.mp hz with hzb | hzyys
      · exfalso
        have hle : key (minByGo key y ys) ≤ key y := (minByGo_spec key ys y).2.1
        rw [hzb] at hkey
        omega
      · exact ih y hyys z hzyys hkey
    · have hstep : minByGo key best (y :: ys) = minByGo key best ys := by
        simp only [minByGo, List.foldl_cons, if_neg hlt]
      rw [hstep] at hkey ⊢
      have hsorted' : List.Sorted (· ≤ ·) (best :: ys) :=
        List.sorted_cons.mpr ⟨hbys, (List.sorted_cons.mp hyys).2⟩
      rcases List.mem_cons.mp hz with hzb | hzyys
      · exact ih best hsorted' z (by rw [hzb]; exact List.mem_cons_self _ _) hkey
      · rcases List.mem_cons.mp hzyys with hzy | hzys
        · rcases minByGo_strict key ys best with h2 | ⟨_, h2⟩
          · rw [h2, hzy]; exact hby
          · exfalso
            have hble : key best ≤ key y := not_lt.mp hlt
            rw [hzy] at hkey
            omega
        · exact ih best hsorted' z (List.mem_cons_of_mem _ hzys) hkey

/-- C7: nearest-valid-window normalization returns a member of the fixed
ladder minimizing the absolute difference to the request, ties broken toward
the lower value, and returns any value already in the ladder unchanged. -/
theorem nearestValidWindow_spec (n : Int) :
    (∃ s ∈ validSizes, nearestValidWindow n = (s : Int)) ∧
    (∀ s ∈ validSizes, (nearestValidWindow n - n).natAbs ≤ ((s : Int) - n).natAbs) ∧
    (∀ s ∈ validSizes, ((s : Int) - n).natAbs = (nearestValidWindow n - n).natAbs →
      nearestValidWindow n ≤ (s : Int)) ∧
    ((∃ s ∈ validSizes, (s : Int) = n) → nearestValidWindow n = n) := by
  by_cases hmem : ∃ s ∈ validSizes, (s : Int) = n
  · have hpos : nearestValidWindow n = n := by
      unfold nearestValidWindow; rw [if_pos hmem]
    obtain ⟨s₀, hs₀, hs₀n⟩ := hmem
    rw [hpos]
    refine ⟨⟨s₀, hs₀, hs₀n.symm⟩, ?_, ?_, fun _ => rfl⟩
    · intro s _; simp
    · intro s _ htie
      rw [sub_self, Int.natAbs_zero] at htie
      have : (s : Int) - n = 0 := Int.natAbs_eq_zero.mp htie
      omega
  · set key := fun s : Nat => ((s : Int) - n).natAbs with hkeydef
    have hneg : nearestValidWindow n = (minByKeyFirst key validSizes : Int) := by
      unfold nearestValidWindow; rw [if_neg hmem]
    have hgo : minByKeyFirst key validSizes
        = minByGo key 4096 [8192, 16384, 32768, 65536, 131072, 262144] := rfl
    have hspec := minByGo_spec key [8192, 16384, 32768, 65536, 131072, 262144] 4096
    have hsort : List.Sorted (· ≤ ·) validSizes := by decide
    have htie := minByGo_tie_le key [8192, 16384, 32768, 65536, 131072, 262144] 4096 hsort
    rw [hneg, hgo]
    refine ⟨?_, ?_, ?_, fun h => absurd h hmem⟩
    · rcases hspec.1 with h | h
      · exact ⟨4096, by decide, by rw [h]⟩
      · exact ⟨_, List.mem_cons_of_mem _ h, rfl⟩
    · intro s hs
      have habs : (((minByGo key 4096 [8192, 16384, 32768, 65536, 131072, 262144] : Nat) : Int)
          - n).natAbs = key (minByGo key 4096 [8192, 16384, 32768, 65536, 131072, 262144]) := rfl
      rw [habs]
      rcases List.mem_cons.mp hs with h | h
      · rw [h]; exact hspec.2.1
      · exact hspec.2.2 s h
    · intro s hs h
      have habs : (((minByGo key 4096 [8192, 16384, 32768, 65536, 131072, 262144] : Nat) : Int)
          - n).natAbs = key (minByGo key 4096 [8192, 16384, 32768, 65536, 131072, 262144]) := rfl
      rw [habs] at h
      exact_mod_cast htie s hs h

/-- Witness for `nearestValidWindow_spec`: concrete instances of the minimal
distance property at 5000, the lower tie-break at the midpoint 6144, and
idempotence at the ladder member 8192. -/
theorem nearestValidWindow_spec_witness :
    (nearestValidWindow 5000 - 5000).natAbs ≤ ((8192 : Int) - 5000).natAbs ∧
    nearestValidWindow 6144 ≤ (8192 : Int) ∧
    nearestValidWindow 8192 = 8192 := by
  refine ⟨(nearestValidWindow_spec 5000).2.1 8192 (by decide), ?_, ?_⟩
  · exact (nearestValidWindow_spec 6144).2.2.1 8192 (by decide) (by decide)
  · exact (nearestValidWindow_spec 8192).2.2.2 ⟨8192, by decide, by decide⟩

theorem truncateCodeFinish_le (maxChars : Nat) (result : List Char) (h50 : 50 ≤ maxChars) :
    (truncateCodeFinish maxChars result).data.length ≤ maxChars := by
  unfold truncateCodeFinish
  split
  · next hover =>
    have hk : (0 : Int) ≤ (maxChars : Int) - 50 := by omega
    have htn : ((maxChars : Int) - 50).toNat = maxChars - 50 := by omega
    simp only [pySliceTo, if_pos hk, htn, List.length_append, List.length_take]
    have hmark : "\n\n[... code truncated ...]".data.length = 26 := by decide
    rw [hmark]
    omega
  · next hover =>
    show result.length ≤ maxChars
    omega

/-- C6 counterexample: at `maxChars = 40` the grace extension applies, the
grace-extended result (43 chars) exceeds `maxChars`, and the hard-truncate
branch — `result[:40 - 50]`, a Python slice counting from the end — yields 59
characters, above both `maxChars` and `maxChars * 1.1 = 44`; so neither the
claimed `1.1` bound nor the claimed exact `maxChars` bound of the
hard-truncate branch holds for every `maxChars`. -/
theorem truncateCode_over_bound_cex :
    (truncateCodeIntelligently c6cex 40).data.length = 59 ∧
    ¬((truncateCodeIntelligently c6cex 40).data.length ≤ 44) ∧
    ¬((truncateCodeIntelligently c6cex 40).data.length ≤ 40) := by
  decide

/-- C6 (amended): for every content string and every `maxChars ≥ 50` — which
covers every call site, since `_build_context` only calls with
`availableSpace > 100` — structure-aware code truncation returns at most
`maxChars` characters, in particular at most `maxChars * 1.1`: a grace-extended
result exceeding `maxChars` always falls into the final hard-truncate branch,
which returns exactly `maxChars - 50` characters plus the 26-character marker.
Only for `maxChars < 50` (never reached from `_build_context`) can the output
exceed the claimed bounds. -/
theorem truncateCode_length_le (content : String) (maxChars : Nat) (h50 : 50 ≤ maxChars) :
    (truncateCodeIntelligently content maxChars).data.length ≤ maxChars := by
  unfold truncateCodeIntelligently
  split
  · next hfit => exact hfit
  · exact truncateCodeFinish_le maxChars _ h50

/-- Witness for `truncateCode_length_le` at the concrete input `c6cex`,
`maxChars = 50`. -/
theorem truncateCode_length_le_witness :
    (truncateCodeIntelligently c6cex 50).data.length ≤ 50 :=
  truncateCode_length_le c6cex 50 (by decide)

theorem chooseContent_length_le (a : Nat) (tr : Bool) (c : Candidate) (h : 50 ≤ a) :
    (chooseContent a tr c).1.length ≤ a := by
  unfold chooseContent
  split
  · exact truncateCode_length_le c.content a h
  · split
    · next hover =>
      show (c.content.data.take (a - 3) ++ "...".data).length ≤ a
      rw [List.length_append, List.length_take]
      have : "...".data.length = 3 := rfl
      omega
    · next hfit =>
      show c.content.data.length ≤ a
      omega

theorem formatBlock_length (idx : Nat) (c : Candidate) (content : List Char) :
    (formatBlock idx c content).length = (formatBlock idx c []).length + content.length := by
  simp only [formatBlock, List.length_append, List.length_nil, List.length_cons]
  omega

theorem toString_len_le_two : ∀ i < 100, (toString i).data.length ≤ 2 := by decide

theorem formatBlock_nil_le (i : Nat) (c : Candidate) (hi : i < 100)
    (hc : c.file_path.data.length + (fmtPercent2 c.score).data.length ≤ 70) :
    (formatBlock i c []).length ≤ 100 := by
  have hd := toString_len_le_two i hi
  simp only [formatBlock, List.length_append, List.length_nil, List.length_cons]
  have h1 : "[Document ".data.length = 10 := rfl
  have h2 : "] ".data.length = 2 := rfl
  have h3 : " (relevance: ".data.length = 13 := rfl
  have h4 : ")\n".data.length = 2 := rfl
  omega

theorem buildLoop_current_le (maxC B : Nat) :
    ∀ (l : List Candidate) (idx : Nat) (st : BuildState),
      (∀ c ∈ l, ∀ i, idx ≤ i → i < idx + l.length → (formatBlock i c []).length ≤ B) →
      st.currentLength ≤ maxC + B →
      (buildLoop maxC idx l st).currentLength ≤ maxC + B := by
  intro l
  induction l with
  | nil => intro idx st _ hst; exact hst
  | cons c rest ih =>
    intro idx st hov hst
    show (buildLoop maxC idx (c :: rest) st).currentLength ≤ maxC + B
    rw [buildLoop]
    split
    · exact hst
    · next hcheck =>
      have hroom : st.currentLength + 100 < maxC := by omega
      have havail : 50 ≤ maxC - st.currentLength := by omega
      have hcl : (chooseContent (maxC - st.currentLength) st.truncated c).1.length
          ≤ maxC - st.currentLength := chooseContent_length_le _ _ _ havail
      have hblock := formatBlock_length idx c
        (chooseContent (maxC - st.currentLength) st.truncated c).1
      have hovc : (formatBlock idx c []).length ≤ B :=
        hov c (List.mem_cons_self _ _) idx (le_refl idx) (by simp)
      refine ih (idx + 1) _ ?_ ?_
      · intro c' hc' i h1i h2i
        exact hov c' (List.mem_cons_of_mem _ hc') i (by omega)
          (by simp only [List.length_cons]; omega)
      · show st.currentLength
            + (formatBlock idx c (chooseContent (maxC - st.currentLength) st.truncated c).1).length
            ≤ maxC + B
        omega

theorem buildLoop_used_le (maxC : Nat) :
    ∀ (l : List Candidate) (idx : Nat) (st : BuildState),
      (buildLoop maxC idx l st).documentsUsed ≤ st.documentsUsed + l.length := by
  intro l
  induction l with
  | nil => intro idx st; simp [buildLoop]
  | cons c rest ih =>
    intro idx st
    rw [buildLoop]
    split
    · simp
    · next hcheck =>
      refine le_trans (ih (idx + 1) _) ?_
      simp only [List.length_cons]
      omega

theorem buildContext_documents_available (query : String) (context : List Candidate)
    (w : Nat) : (buildContext query context w).2.documents_available = context.length := by
  unfold buildContext
  split
  · next h => rw [List.isEmpty_iff.mp h]; rfl
  · rfl

theorem buildContext_documents_used_le (query : String) (context : List Candidate)
    (w : Nat) : (buildContext query context w).2.documents_used ≤ min 50 context.length := by
  unfold buildContext
  split
  · next h => rw [List.isEmpty_iff.mp h]; simp
  · next h =>
    show (buildLoop (3 * w / 4 * 4) 1 (context.take 50) ⟨[], 0, 0, false⟩).documentsUsed
      ≤ min 50 context.length
    refine le_trans (buildLoop_used_le _ _ _ _) ?_
    simp [List.length_take]

/-- C2 counterexample: with 51 supplied candidates, `_build_context` reports
`documents_available = len(context) = 51 > 50` (only the *used* count is
capped by the `context[:50]` iteration). -/
theorem buildContext_available_cex :
    (buildContext "q" c2cands 4096).2.documents_available = 51 ∧
    ¬((buildContext "q" c2cands 4096).2.documents_available ≤ 50) := by
  constructor
  · rfl
  · decide

/-- C2 (amended): for every candidate list the stats of `_build_context`
satisfy `documents_used ≤ documents_available` and `documents_used ≤ 50`, and
`documents_available` equals the number of supplied candidates — so it can
exceed 50 when more than 50 candidates are supplied, contrary to the claimed
`documents_available ≤ 50`. -/
theorem buildContext_documents_spec (query : String) (context : List Candidate) (w : Nat) :
    (buildContext query context w).2.documents_used
        ≤ (buildContext query context w).2.documents_available ∧
    (buildContext query context w).2.documents_used ≤ 50 ∧
    (buildContext query context w).2.documents_available = context.length := by
  have h1 := buildContext_documents_used_le query context w
  have h2 := buildContext_documents_available query context w
  refine ⟨?_, ?_, h2⟩
  · rw [h2]; omega
  · omega

/-- C3 counterexample: the per-candidate loop bounds only the *content* of a
block by the available space; the block header (`[Document 1] <path>
(relevance: ...)`) is appended on top of it, so a 120-character file path
pushes `context_chars` to 562 while `max_context_chars + 100 = 508`
(window 136 → `max_context_chars = 408`). -/
theorem buildContext_chars_cex :
    (buildContext "q" [c3cand] 136).2.context_chars = 562 ∧
    (buildContext "q" [c3cand] 136).2.max_context_chars = 408 ∧
    ¬((buildContext "q" [c3cand] 136).2.context_chars
        ≤ (buildContext "q" [c3cand] 136).2.max_context_chars + 100) := by
  refine ⟨by decide, by decide, by decide⟩

/-- C3 (amended): for every candidate list and window,
`documents_used ≤ min(50, len(candidates))`; and provided every candidate's
file path plus formatted relevance string stay within 70 characters (so each
block's non-content overhead is at most 100 characters),
`context_chars ≤ max_context_chars + 100` — the one in-flight block may exceed
the budget by its header and trailing newline in addition to its content, so
the claimed unconditional `+ 100` bound only holds under that header bound. -/
theorem buildContext_context_chars_spec (query : String) (context : List Candidate)
    (w : Nat)
    (hpath : ∀ c ∈ context,
      c.file_path.data.length + (fmtPercent2 c.score).data.length ≤ 70) :
    (buildContext query context w).2.context_chars
        ≤ (buildContext query context w).2.max_context_chars + 100 ∧
    (buildContext query context w).2.documents_used ≤ min 50 context.length := by
  refine ⟨?_, buildContext_documents_used_le query context w⟩
  unfold buildContext
  split
  · simp
  · next h =>
    show (buildLoop (3 * w / 4 * 4) 1 (context.take 50) ⟨[], 0, 0, false⟩).currentLength
      ≤ 3 * w / 4 * 4 + 100
    refine buildLoop_current_le _ 100 _ 1 _ ?_ (Nat.zero_le _)
    intro c hc i h1 h2
    have htk : (context.take 50).length ≤ 50 := by
      rw [List.length_take]; omega
    exact formatBlock_nil_le i c (by omega) (hpath c (List.take_subset 50 context hc))

/-- Witness for `buildContext_context_chars_spec` at a concrete one-candidate
input and window 4096. -/
theorem buildContext_context_chars_spec_witness :
    (buildContext "q" [smallPyCand] 4096).2.context_chars
        ≤ (buildContext "q" [smallPyCand] 4096).2.max_context_chars + 100 ∧
    (buildContext "q" [smallPyCand] 4096).2.documents_used ≤ min 50 [smallPyCand].length :=
  buildContext_context_chars_spec "q" [smallPyCand] 4096 (by decide)

/-- C10: an input on which `_build_context` shortens a candidate's content
(the produced context document is 38 characters against 430 characters of
content, the structure-aware truncation having cut the oversized single-line
body to nothing) while the returned stats still report `truncated = false`,
because the code path through `_truncate_code_intelligently` never sets the
flag. -/
theorem buildContext_silent_truncation :
    (buildContext "q" [c10cand] 136).2.truncated = false ∧
    (buildContext "q" [c10cand] 136).1.data.length = 38 ∧
    c10cand.content.data.length = 430 ∧
    (buildContext "q" [c10cand] 136).2.documents_used = 1 := by
  refine ⟨by decide, by decide, by decide, by decide⟩

/-- C9: after every `add_usage_entry` the stored history holds at most 100
entries, and what is kept is exactly the suffix of the most recently appended
entries, in order (oldest evicted first). -/
theorem addUsageEntry_spec (history : List UsageEntry) (entry : UsageEntry) :
    (addUsageEntry history entry).length ≤ 100 ∧
    addUsageEntry history entry
      = (history ++ [entry]).drop ((history.length + 1) - 100) := by
  have hzeta : addUsageEntry history entry
      = if 100 < (history ++ [entry]).length then
          (history ++ [entry]).drop ((history ++ [entry]).length - 100)
        else history ++ [entry] := rfl
  have hlen : (history ++ [entry]).length = history.length + 1 := by simp
  rw [hzeta]
  split
  · next h =>
    constructor
    · rw [List.length_drop]; omega
    · rw [hlen]
  · next h =>
    constructor
    · omega
    · rw [show history.length + 1 - 100 = 0 by omega, List.drop_zero]

theorem find?_of_exists {p : Nat → Bool} :
    ∀ (l : List Nat), (∃ x ∈ l, p x = true) → ∃ y, l.find? p = some y ∧ p y = true := by
  intro l
  induction l with
  | nil => rintro ⟨x, hx, _⟩; cases hx
  | cons a as ih =>
    rintro ⟨x, hx, hpx⟩
    by_cases hpa : p a = true
    · exact ⟨a, List.find?_cons_of_pos as hpa, hpa⟩
    · rcases List.mem_cons.mp hx with h | h
      · rw [h] at hpx; exact absurd hpx hpa
      · obtain ⟨y, hy, hpy⟩ := ih ⟨x, h, hpx⟩
        exact ⟨y, by rw [List.find?_cons_of_neg as (by simp [hpa])]; exact hy, hpy⟩

theorem find?_sorted_min {p : Nat → Bool} :
    ∀ (l : List Nat), List.Sorted (· ≤ ·) l → ∀ y, l.find? p = some y →
      ∀ t ∈ l, p t = true → y ≤ t := by
  intro l
  induction l with
  | nil => intro _ y hy; simp [List.find?] at hy
  | cons a as ih =>
    intro hs y hy t ht hpt
    by_cases hpa : p a = true
    · rw [List.find?_cons_of_pos as hpa] at hy
      have hya : y = a := (Option.some_inj.mp hy).symm
      rcases List.mem_cons.mp ht with h | h
      · rw [hya, h]
      · rw [hya]
        exact (List.sorted_cons.mp hs).1 t h
    · rw [List.find?_cons_of_neg as (by simp [hpa])] at hy
      rcases List.mem_cons.mp ht with h | h
      · rw [h] at hpt; exact absurd hpt hpa
      · exact ih (List.sorted_cons.mp hs).2 y hy t h hpt

theorem validSizes_sorted : List.Sorted (· ≤ ·) validSizes := by decide

/-- C8: with fewer than 5 history entries the recommender returns nothing;
with at least 5 entries and the upsize trigger firing (more than 5 of the
last 20 entries above 90% usage, or more than 3 truncated), if a ladder size
strictly above the current window exists it recommends the smallest such
size, with confidence `"high"` when the high-usage count exceeds 10 and
`"medium"` otherwise. -/
theorem getSmartRecommendation_spec (history : List UsageEntry) (w : Nat) :
    (history.length < 5 → getSmartRecommendation history w = none) ∧
    (5 ≤ history.length →
      (5 < highUsageCount history ∨ 3 < truncationCount history) →
      (∃ s ∈ validSizes, w < s) →
      ∃ r, getSmartRecommendation history w = some r ∧
        r.size ∈ validSizes ∧ w < r.size ∧
        (∀ t ∈ validSizes, w < t → r.size ≤ t) ∧
        r.confidence = (if 10 < highUsageCount history then "high" else "medium")) := by
  constructor
  · intro h
    unfold getSmartRecommendation
    rw [if_pos h]
  · intro h5 htrig hex
    obtain ⟨s₀, hs₀, hws₀⟩ := hex
    obtain ⟨y, hy, hpy⟩ :=
      @find?_of_exists (fun s => decide (w < s)) validSizes ⟨s₀, hs₀, decide_eq_true hws₀⟩
    have hrw : getSmartRecommendation history w
        = some { size := y
                 reason := "High usage detected (" ++ toString (highUsageCount history)
                   ++ " queries >90%, " ++ toString (truncationCount history)
                   ++ " truncated). Average usage: "
                   ++ fmtFixedFrac 1 (avgUsageFrac history).1 (avgUsageFrac history).2
                   ++ "%. Consider increasing to " ++ toString y ++ " tokens."
                 confidence := if 10 < highUsageCount history then "high" else "medium" } := by
      unfold getSmartRecommendation
      rw [if_neg (by omega)]
      simp only [if_pos htrig, hy]
      rfl
    refine ⟨_, hrw, List.mem_of_find?_eq_some hy, of_decide_eq_true hpy, ?_, rfl⟩
    intro t ht hwt
    exact find?_sorted_min validSizes validSizes_sorted y hy t ht (decide_eq_true hwt)

/-- Witness for `getSmartRecommendation_spec`: on `c8hist` (10 entries, 6 of
the last 20 above 90%) with window 4096, an upsize recommendation is
produced. -/
theorem getSmartRecommendation_spec_witness :
    (getSmartRecommendation c8hist 4096).isSome = true := by
  obtain ⟨r, hr, -, -, -, -⟩ :=
    (getSmartRecommendation_spec c8hist 4096).2 (by decide) (Or.inl (by decide))
      ⟨8192, by decide, by decide⟩
  rw [hr]
  rfl

/-- C4 counterexample: on `c4hist` with the current window at the top of the
ladder (262144) both triggers hold, yet `get_smart_recommendation` returns
the *downsize* recommendation (131072, confidence `"low"`): the upsize branch
finds no ladder size above 262144 and falls through to the downsize branch,
so "never a downsize one" fails as stated. -/
theorem getSmartRecommendation_both_triggers_cex :
    5 < highUsageCount c4hist ∧
    (avgUsageFrac c4hist).1 < 30 * (avgUsageFrac c4hist).2 ∧
    4096 < 262144 ∧
    getSmartRecommendation c4hist 262144
      = some { size := 131072
               reason := "Low average usage (27.3%). Could reduce to 131072 tokens to save memory."
               confidence := "low" } ∧
    131072 < 262144 := by
  refine ⟨by decide, by decide, by decide, by decide, by decide⟩

/-- C4 (amended): whenever both the upsize trigger and the downsize trigger
hold simultaneously *and a ladder size strictly above the current window
exists*, the recommender returns that upsize recommendation (confidence
`"high"` or `"medium"`, never `"low"`) and never the downsize one; only when
the current window is already at the top of the ladder does the downsize
branch win (see the counterexample). -/
theorem getSmartRecommendation_upsize_priority (history : List UsageEntry) (w : Nat)
    (h5 : 5 ≤ history.length)
    (hup : 5 < highUsageCount history ∨ 3 < truncationCount history)
    (hdown : (avgUsageFrac history).1 < 30 * (avgUsageFrac history).2 ∧ 4096 < w)
    (hex : ∃ s ∈ validSizes, w < s) :
    ∃ r, getSmartRecommendation history w = some r ∧ w < r.size ∧
      r.confidence ≠ "low" := by
  obtain ⟨s₀, hs₀, hws₀⟩ := hex
  obtain ⟨y, hy, hpy⟩ :=
    @find?_of_exists (fun s => decide (w < s)) validSizes ⟨s₀, hs₀, decide_eq_true hws₀⟩
  have hrw : getSmartRecommendation history w
      = some { size := y
               reason := "High usage detected (" ++ toString (highUsageCount history)
                 ++ " queries >90%, " ++ toString (truncationCount history)
                 ++ " truncated). Average usage: "
                 ++ fmtFixedFrac 1 (avgUsageFrac history).1 (avgUsageFrac history).2
                 ++ "%. Consider increasing to " ++ toString y ++ " tokens."
               confidence := if 10 < highUsageCount history then "high" else "medium" } := by
    unfold getSmartRecommendation
    rw [if_neg (by omega)]
    simp only [if_pos hup, hy]
    rfl
  refine ⟨_, hrw, of_decide_eq_true hpy, ?_⟩
  split
  · show ("high" : String) ≠ "low"
    decide
  · show ("medium" : String) ≠ "low"
    decide

/-- Witness for `getSmartRecommendation_upsize_priority`: on `c4hist` (both
triggers hold) with window 4096, the returned recommendation is an upsize. -/
theorem getSmartRecommendation_upsize_priority_witness :
    (getSmartRecommendation c4hist 8192).map Recommendation.confidence ≠ some "low" := by
  obtain ⟨r, hr, -, hc⟩ :=
    getSmartRecommendation_upsize_priority c4hist 8192 (by decide) (Or.inl (by decide))
      ⟨by decide, by decide⟩ ⟨16384, by decide, by decide⟩
  rw [hr]
  simpa using hc

/-- C1 counterexample: with the client not yet initialized and the Ollama
connection attempt failing, `generate_answer` re-raises out of
`_initialize()` (line 153; the call at line 267 sits outside the function's
own try/except), so this failure to reach the backend surfaces as an
exception, not as an (answer, stats) pair — the repository's API layer wraps
the call in its own `try/except` for exactly this case. -/
theorem generateAnswer_raises_cex :
    (generateAnswer c1FailState "q" [⟨"c", "f", 0, ""⟩] none 0 true none).1
      = Except.error "Connection refused" ∧
    (generateAnswer c1FailState "q" [⟨"c", "f", 0, ""⟩] none 0 true none).2 = false :=
  ⟨rfl, rfl⟩

/-- C1 (amended): provided lazy initialization does not raise (the client is
already initialized, or its connection attempt succeeds), `generate_answer`
always returns an (answer, stats) pair, never an exception; and when the
generation request itself fails with an `httpx.HTTPError` (on a non-sentinel
context), the pair is the human-readable connection-error answer together
with `{"error": <message>}`. A failure to reach the backend during lazy
initialization, however, propagates as an exception (see the counterexample). -/
theorem generateAnswer_total_spec (st : LLMState) (query : String)
    (context : List Candidate) (maxLength : Option Nat) (temperature : ℚ)
    (iterative : Bool) (ovr : Option Nat)
    (hinit : st.initialized = true ∨ st.initOutcome = Except.ok ()) :
    exceptIsOk (generateAnswer st query context maxLength temperature iterative ovr).1
      = true ∧
    (∀ msg, st.genResult = GenResult.httpError msg → st.httpxAvailable = true →
      (buildContext query context (pyOrNat ovr st.contextWindow)).1 ≠ "" →
      pyStrip (buildContext query context (pyOrNat ovr st.contextWindow)).1
        ≠ emptyContextSentinel →
      (generateAnswer st query context maxLength temperature iterative ovr).1
        = Except.ok ("Error connecting to Ollama: " ++ msg
            ++ ". Make sure Ollama is running: ollama serve",
            [("error", JVal.str msg)])) := by
  have hok : (if st.initialized then Except.ok () else st.initOutcome)
      = (Except.ok () : Except String Unit) := by
    rcases hinit with h | h
    · rw [if_pos h]
    · by_cases hi : st.initialized = true
      · rw [if_pos hi]
      · rw [if_neg hi, h]
  cases hava : st.httpxAvailable with
  | false =>
    constructor
    · simp [generateAnswer, hava, exceptIsOk]
    · intro msg _ hava2
      simp at hava2
  | true =>
    by_cases hsent : (buildContext query context (pyOrNat ovr st.contextWindow)).1 = ""
        ∨ pyStrip (buildContext query context (pyOrNat ovr st.contextWindow)).1
            = emptyContextSentinel
    · have hred : generateAnswer st query context maxLength temperature iterative ovr
          = (Except.ok (apologyAnswer,
              [("context_documents_available", JVal.num context.length),
               ("context_documents_used", JVal.num 0),
               ("context_usage_percent", JVal.num 0),
               ("warning", JVal.str "No content available in context")]), false) := by
        simp only [generateAnswer, hava, hok, if_true]
        rw [if_pos hsent]
      constructor
      · rw [hred]
        rfl
      · intro msg _ _ hne1 hne2
        rcases hsent with h | h
        · exact absurd h hne1
        · exact absurd h hne2
    · constructor
      · cases hgen : st.genResult with
        | success response =>
          by_cases hw : pyOrNat ovr st.contextWindow = 0
          · have hred : (generateAnswer st query context maxLength temperature iterative ovr).1
                = Except.ok ("Error generating answer: division by zero",
                    [("error", JVal.str "division by zero")]) := by
              simp only [generateAnswer, hava, hok, if_true]
              rw [if_neg hsent]
              simp only [hgen]
              rw [if_pos hw]
            rw [hred]
            rfl
          · simp only [generateAnswer, hava, hok, if_true]
            rw [if_neg hsent]
            simp only [hgen]
            rw [if_neg hw]
            rfl
        | httpError e =>
          simp only [generateAnswer, hava, hok, if_true]
          rw [if_neg hsent]
          simp only [hgen]
          rfl
        | otherError e =>
          simp only [generateAnswer, hava, hok, if_true]
          rw [if_neg hsent]
          simp only [hgen]
          rfl
      · intro msg hgen _ _ _
        simp only [generateAnswer, hava, hok, if_true]
        rw [if_neg hsent]
        simp only [hgen]

/-- Witness for `generateAnswer_total_spec`: an initialized client whose
generation request times out returns the connection-error pair for a concrete
one-candidate context. -/
theorem generateAnswer_total_spec_witness :
    (generateAnswer httpFailState "q" [⟨"c", "f", 0, ""⟩] none 0 true none).1
      = Except.ok ("Error connecting to Ollama: " ++ "timeout"
          ++ ". Make sure Ollama is running: ollama serve",
          [("error", JVal.str "timeout")]) :=
  (generateAnswer_total_spec httpFailState "q" [⟨"c", "f", 0, ""⟩] none 0 true none
      (Or.inl rfl)).2
    "timeout" rfl rfl (by decide) (by decide)

/-- C5 counterexample: even on an empty candidate list, `generate_answer`
raises (rather than returning the canned apology pair) when the lazy
initialization connection attempt fails, since `_initialize()` runs before
the empty-context check. -/
theorem generateAnswer_empty_raises_cex :
    (generateAnswer c1FailState "q" [] none 0 true none).1
      = Except.error "Connection refused" := rfl

/-- C5 (amended): when httpx is available and lazy initialization does not
raise (already initialized, or the connection attempt succeeds),
`generate_answer` on an empty candidate list returns the canned apology
answer and a stats record with `context_documents_used = 0`, a zero usage
percent and a `warning` field, and the `/api/generate` generation endpoint is
never invoked (the `false` component; the initialization probe `/api/tags` is
the only backend contact, and only when not yet initialized). -/
theorem generateAnswer_empty_context_spec (st : LLMState) (query : String)
    (maxLength : Option Nat) (temperature : ℚ) (iterative : Bool) (ovr : Option Nat)
    (hava : st.httpxAvailable = true)
    (hinit : st.initialized = true ∨ st.initOutcome = Except.ok ()) :
    generateAnswer st query [] maxLength temperature iterative ovr
      = (Except.ok (apologyAnswer,
          [("context_documents_available", JVal.num 0),
           ("context_documents_used", JVal.num 0),
           ("context_usage_percent", JVal.num 0),
           ("warning", JVal.str "No content available in context")]), false) := by
  have hok : (if st.initialized then Except.ok () else st.initOutcome)
      = (Except.ok () : Except String Unit) := by
    rcases hinit with h | h
    · rw [if_pos h]
    · by_cases hi : st.initialized = true
      · rw [if_pos hi]
      · rw [if_neg hi, h]
  have hbc : (buildContext query [] (pyOrNat ovr st.contextWindow)).1
      = emptyContextSentinel := rfl
  simp only [generateAnswer, hava, hok, if_true]
  rw [if_pos (Or.inr (by rw [hbc]; decide))]
  rfl

/-- Witness for `generateAnswer_empty_context_spec` on a concrete healthy
client. -/
theorem generateAnswer_empty_context_spec_witness :
    generateAnswer okState "q" [] none 0 true none
      = (Except.ok (apologyAnswer,
          [("context_documents_available", JVal.num 0),
           ("context_documents_used", JVal.num 0),
           ("context_usage_percent", JVal.num 0),
           ("warning", JVal.str "No content available in context")]), false) :=
  generateAnswer_empty_context_spec okState "q" none 0 true none rfl (Or.inl rfl)

end Codexa
